import Mathlib

/-!
Verification development for the package dynamodbtest.

A shallow embedding of `db.go` (package `dynamodbtest`): the port allocator
`newPort`, the constructor `New`, and the handle methods `Close` and `URL`.

* Go machine integers are mathematical integers wrapped explicitly to their
  width (`int64` is 64 bits, `int` is `intBits` bits, 32 or 64 by platform).
* The operating system (process launch, kill, wait, the readiness race) is a
  record of transition functions over an arbitrary OS state; a `Wait` that
  never returns is `none`.
* A Go call either returns, in a new world, or aborts (a run-time panic, or a
  call that blocks for ever) in the world reached: the type `Outcome`.
* Every action on the environment is appended to the trace of the world.
-/

namespace Dynamodbtest

/-! ## Machine integers -/

/-- Two's-complement wrap of a mathematical integer to a signed machine integer
of `w` bits: the result lies in `[-2^(w-1), 2^(w-1))` and is congruent to `x`
modulo `2^w`. -/
def wrapInt (w : Nat) (x : Int) : Int :=
  (x + 2 ^ (w - 1)) % 2 ^ w - 2 ^ (w - 1)

/-- Go `int64` addition (wraps on overflow). -/
def addInt64 (a b : Int) : Int := wrapInt 64 (a + b)

/-- Go conversion `int(x)` of an `int64` on a platform whose `int` has
`intBits` bits. -/
def toInt (intBits : Nat) (x : Int) : Int := wrapInt intBits x

/-! ## The port counter: `newPort` (db.go, lines 111-117) -/

/-- The function `newPort`, as a state transformer on the package variable
`portCount`: returns `(int(port), portCount after the call)`.

    port := 8000 + portCount
    atomic.AddInt64(&portCount, 1)
    return int(port)
-/
def newPort (intBits : Nat) (portCount : Int) : Int × Int :=
  let port := addInt64 8000 portCount
  let portCount1 := addInt64 portCount 1
  (toInt intBits port, portCount1)

/-- The ports returned by `n` sequential calls of `newPort`, oldest first,
together with the final counter. -/
def newPorts (intBits : Nat) : Nat → Int → List Int × Int
  | 0, c => ([], c)
  | n + 1, c =>
    let r := newPort intBits c
    let rest := newPorts intBits n r.2
    (r.1 :: rest.1, rest.2)

/-! ### `newPort` as interleavable steps

Each goroutine executing `newPort` performs two shared-memory steps: the plain
read of `portCount` in `port := 8000 + portCount`, then the atomic add. -/

/-- Program counter (with the local variable `port`) of one goroutine inside
`newPort`. -/
inductive PC
  /-- Before `port := 8000 + portCount`. -/
  | atRead
  /-- Before `atomic.AddInt64(&portCount, 1)`, holding the local `port`. -/
  | atAdd (port : Int)
  /-- After `return`, with the value returned. -/
  | done (ret : Int)
  deriving DecidableEq, Repr

/-- One step of one goroutine: `(portCount, pc) ↦ (portCount, pc)`. -/
def stepThread (intBits : Nat) (portCount : Int) : PC → Int × PC
  | .atRead => (portCount, .atAdd (addInt64 8000 portCount))
  | .atAdd port => (addInt64 portCount 1, .done (toInt intBits port))
  | .done r => (portCount, .done r)

/-- The shared counter and the goroutines calling `newPort`. -/
structure Conc where
  portCount : Int
  threads : List PC
  deriving DecidableEq, Repr

/-- Goroutine `i` takes its next step (no effect if there is no goroutine `i`,
or it has returned). -/
def Conc.step (intBits : Nat) (s : Conc) (i : Nat) : Conc :=
  match s.threads.get? i with
  | none => s
  | some pc =>
    let r := stepThread intBits s.portCount pc
    { portCount := r.1, threads := s.threads.set i r.2 }

/-- Run a schedule: the list of goroutine indices in the order they step. -/
def Conc.run (intBits : Nat) (s : Conc) (schedule : List Nat) : Conc :=
  schedule.foldl (Conc.step intBits) s

/-- Initial configuration: `n` goroutines about to enter `newPort`. -/
def Conc.init (portCount : Int) (n : Nat) : Conc :=
  { portCount := portCount, threads := List.replicate n PC.atRead }

/-- The ports returned so far, one entry per goroutine (`none`: still inside
`newPort`). -/
def Conc.returned (s : Conc) : List (Option Int) :=
  s.threads.map fun pc => match pc with
    | .done r => some r
    | _ => none

/-- Every goroutine has returned. -/
def Conc.finished (s : Conc) : Bool :=
  s.threads.all fun pc => match pc with
    | .done _ => true
    | _ => false

/-! ## Strings and formatting -/

/-- Split a list of characters at every occurrence of the character `sep`. -/
def splitChars (sep : Char) : List Char → List (List Char)
  | [] => [[]]
  | c :: cs =>
    if c = sep then [] :: splitChars sep cs
    else match splitChars sep cs with
      | [] => [[c]]
      | h :: t => (c :: h) :: t

/-- Go `strings.Split(s, sep)` for a separator of one (ASCII) character, the
only use in `db.go` being `strings.Split(..., ":")`. Go splits the bytes of
the string; an ASCII byte never occurs inside the encoding of another
character, so for text in UTF-8 this is the split of its characters. -/
def Split (s : String) (sep : Char) : List String :=
  (splitChars sep s.data).map String.mk

/-- Go `os.Getenv`: the value of the variable, `""` when it is unset. -/
def Getenv (v : Option String) : String := v.getD ""

/-- The verb `%d` of package `fmt` applied to an `int`: signed decimal. -/
def formatInt (i : Int) : String :=
  if i < 0 then "-" ++ Nat.repr i.natAbs else Nat.repr i.toNat

/-- One step of a decoder for signed decimals: a minus sign sets the flag, a
digit extends the magnitude. Used to show that `formatInt` loses nothing. -/
def parseStep (a : Bool × Nat) (ch : Char) : Bool × Nat :=
  if ch = '-' then (true, a.2) else (a.1, 10 * a.2 + (ch.toNat - 48))

/-- Decode a signed decimal into (is negative, magnitude). -/
def parseInt (s : String) : Bool × Nat := s.data.foldl parseStep (false, 0)

/-- An error created outside this package (by `os` or `os/exec`), identified
by its message. -/
structure OSError where
  msg : String
  deriving DecidableEq, Repr

/-- The non-nil values of Go type `error` that this package handles: its two
package-level error variables, and errors passed on from the OS packages.
The `nil` error is `none : Option GoError`. -/
inductive GoError
  | ErrConnectTimeout
  | ErrGopath
  | os (e : OSError)
  deriving DecidableEq, Repr

/-- The method `Error()`. -/
def GoError.Error : GoError → String
  | .ErrConnectTimeout => "[dynamodbtest] timeout starting server"
  | .ErrGopath => "[dynamodbtest] GOPATH must be set"
  | .os e => e.msg

/-- An operand of `fmt.Sprint` or `fmt.Println`, of one of the dynamic types
that occur in `db.go`. -/
inductive Operand
  | str (s : String)
  | int (i : Int)
  | err (e : Option OSError)
  deriving DecidableEq, Repr

/-- Whether the operand is a string (`reflect.String`). -/
def Operand.isString : Operand → Bool
  | .str _ => true
  | _ => false

/-- The default format `%v` of an operand. -/
def Operand.format : Operand → String
  | .str s => s
  | .int i => formatInt i
  | .err none => "<nil>"
  | .err (some e) => e.msg

/-- The loop of `fmt`: a space is added between two operands when neither is
a string. `isFirst` is `argNum = 0`. -/
def doPrint (isFirst prevString : Bool) : List Operand → String
  | [] => ""
  | a :: rest =>
    (if !isFirst && !a.isString && !prevString then " " else "")
      ++ a.format ++ doPrint false a.isString rest

/-- Go `fmt.Sprint`. -/
def Sprint (a : List Operand) : String := doPrint true false a

/-- The loop of `fmt` for the `ln` variants: a space between all operands,
then a newline. -/
def doPrintln (isFirst : Bool) : List Operand → String
  | [] => "\n"
  | a :: rest => (if !isFirst then " " else "") ++ a.format ++ doPrintln false rest

/-- Go `fmt.Sprintln`, the text written by `fmt.Println`. -/
def Sprintln (a : List Operand) : String := doPrintln true a

/-! ## Handles, the operating system, the world -/

/-- Go `os.Process`, as far as `db.go` uses it. -/
structure Process where
  Pid : Int
  deriving DecidableEq, Repr

/-- Go `exec.Cmd`: the program name and the arguments given to
`exec.Command`, and the field `Process`, nil until `Start` succeeds. -/
structure Cmd where
  name : String
  arg : List String
  Process : Option Process
  deriving DecidableEq, Repr

/-- Go `exec.Command(name, arg...)`: a command that has not been started. The
search of `name` in `PATH` belongs to the operating system; its failure is an
error of `Start`. -/
def Command (name : String) (arg : List String) : Cmd :=
  { name := name, arg := arg, Process := none }

/-- The struct `DB` (db.go, lines 26-29). -/
structure DB where
  addr : String
  cmd : Cmd
  deriving DecidableEq, Repr

/-- Which case of the `select` statement of `New` fires. -/
inductive Ready
  /-- The case `<-connected`. -/
  | connected
  /-- The case `<-time.After(ConnectTimeout)`. -/
  | timeout
  deriving DecidableEq, Repr

/-- The observable actions of the package on its environment. -/
inductive Event
  /-- The call `db.cmd.StderrPipe()`. -/
  | stderrPipe (cmd : Cmd)
  /-- The goroutine forwarding the lines of the child to the logger is started. -/
  | goLog (port : Int)
  /-- The call `db.cmd.Start()`. -/
  | start (cmd : Cmd)
  /-- The goroutine dialling `addr` every 10ms is started. -/
  | goDial (addr : String)
  /-- The call `db.cmd.Process.Kill()`. -/
  | kill (p : Process)
  /-- The call `fmt.Println(...)`, with the text written. -/
  | println (text : String)
  /-- The call `db.cmd.Process.Wait()`. -/
  | wait (p : Process)
  deriving DecidableEq, Repr

/-- The operating system as seen by the package, over an arbitrary state `σ`.
Only `Wait` can block for ever (`none`); the `select` of `New` always returns,
since its timer fires. -/
structure OS (σ : Type) where
  StderrPipe : σ → Cmd → σ × Option OSError
  Start : σ → Cmd → σ × Except OSError Process
  /-- The race between the dialling goroutine and the timer. -/
  race : σ → String → σ × Ready
  Kill : σ → Process → σ × Option OSError
  Wait : σ → Process → Option (σ × Option OSError)

/-- The state a call runs in: the package variables `portCount` and
`LogOutput`, the environment variable `GOPATH` (`none`: unset), the state of
the operating system, and the actions performed so far. -/
structure World (σ : Type) where
  portCount : Int
  LogOutput : Bool
  GOPATH : Option String
  os : σ
  trace : List Event
  deriving DecidableEq, Repr

/-- The ways a Go call does not return. -/
inductive Abort
  /-- A run-time panic. -/
  | panic (msg : String)
  /-- The call blocks for ever. -/
  | blocked
  deriving DecidableEq, Repr

deriving instance DecidableEq for Except

/-- Outcome of a call: it returns `α` in a new world, or it aborts, in the
world reached at that point. -/
abbrev Outcome (σ α : Type) := Except (Abort × World σ) (World σ × α)

/-- The world an outcome ends in. -/
def Outcome.world {σ α : Type} : Outcome σ α → World σ
  | .ok r => r.1
  | .error e => e.2

/-- The command carried by an action on a command. -/
def Event.cmd? : Event → Option Cmd
  | .stderrPipe c => some c
  | .start c => some c
  | _ => none

/-! ## `Close` and `URL` (db.go, lines 100-109) -/

/-- The method `Close`.

    err := db.cmd.Process.Kill()
    fmt.Println("Killing dynamodb pid=", db.cmd.Process.Pid, " err=", err)
    _, err = db.cmd.Process.Wait()
    return err
-/
def Close {σ : Type} (os : OS σ) (db : DB) (w : World σ) : Outcome σ (Option GoError) :=
  match db.cmd.Process with
  | none => .error (.panic "runtime error: invalid memory address or nil pointer dereference", w)
  | some p =>
    let k := os.Kill w.os p
    let text := Sprintln [.str "Killing dynamodb pid=", .int p.Pid, .str " err=", .err k.2]
    let tr := w.trace ++ [.kill p, .println text, .wait p]
    match os.Wait k.1 p with
    | none => .error (.blocked, { w with os := k.1, trace := tr })
    | some r => .ok ({ w with os := r.1, trace := tr }, r.2.map GoError.os)

/-- The method `URL`: `fmt.Sprint("http://", db.addr)`. -/
def URL (db : DB) : String := Sprint [.str "http://", .str db.addr]

/-! ## `New` (db.go, lines 32-98) -/

/-- The function `New`. The result is the world after the call and the pair
`(*DB, error)` it returns. -/
def New {σ : Type} (os : OS σ) (intBits : Nat) (w : World σ) :
    Outcome σ (Option DB × Option GoError) :=
  let np := newPort intBits w.portCount
  let port := np.1
  let w := { w with portCount := np.2 }
  let addr := "localhost:" ++ formatInt port
  match Split (Getenv w.GOPATH) ':' with
  | [] => .error (.panic "runtime error: index out of range [0] with length 0", w)
  | gopath :: _ =>
    if gopath = "" then .ok (w, none, some .ErrGopath)
    else
      let path := gopath ++ "/src/github.com/groupme/dynamodbtest/"
      let db : DB :=
        { addr := addr
          cmd := Command "java"
            [ "-Djava.library.path=" ++ path ++ "DynamoDbLocal_lib",
              "-jar",
              path ++ "DynamoDBLocal.jar",
              "-port",
              formatInt port,
              "-inMemory" ] }
      -- log output
      let pipe : World σ × Option OSError :=
        if w.LogOutput then
          let r := os.StderrPipe w.os db.cmd
          ({ w with os := r.1, trace := w.trace ++ [.stderrPipe db.cmd] }, r.2)
        else (w, none)
      match pipe.2 with
      | some err => .ok (pipe.1, none, some (.os err))
      | none =>
        let w :=
          if w.LogOutput then { pipe.1 with trace := pipe.1.trace ++ [.goLog port] }
          else pipe.1
        -- start command
        let st := os.Start w.os db.cmd
        let w := { w with os := st.1, trace := w.trace ++ [.start db.cmd] }
        match st.2 with
        | .error err => .ok (w, none, some (.os err))
        | .ok proc =>
          let db : DB := { db with cmd := { db.cmd with Process := some proc } }
          -- try to connect
          let rc := os.race w.os db.addr
          let w := { w with os := rc.1, trace := w.trace ++ [.goDial db.addr] }
          match rc.2 with
          | .connected => .ok (w, some db, none)
          | .timeout =>
            match Close os db w with
            | .error a => .error a
            | .ok r => .ok (r.1, none, some .ErrConnectTimeout)

/-- Sequential calls of `New`, one per entry of `cfg`; before each call the
client sets `LogOutput` and `GOPATH` to the entry (it cannot touch the
unexported `portCount`). Returns the results in call order. -/
def NewSeq {σ : Type} (os : OS σ) (intBits : Nat) :
    List (Bool × Option String) → World σ →
      Outcome σ (List (Option DB × Option GoError))
  | [], w => .ok (w, [])
  | c :: cs, w =>
    match New os intBits { w with LogOutput := c.1, GOPATH := c.2 } with
    | .error a => .error a
    | .ok r =>
      match NewSeq os intBits cs r.1 with
      | .error a => .error a
      | .ok rs => .ok (rs.1, r.2 :: rs.2)

/-! ## A concrete operating system: children as state machines -/

/-- The life of a child process: running, killed (a zombie, not yet waited
for), reaped. -/
inductive Child
  | running
  | killed
  | reaped
  deriving DecidableEq, Repr

/-- State of the simulated system: the children, the process id of a child
being its index, and whether a child opens its port in time. -/
structure Sim where
  procs : List Child
  opens : Bool
  deriving DecidableEq, Repr

/-- The child addressed by a process handle. -/
def Sim.child (s : Sim) (p : Process) : Option Child :=
  if p.Pid < 0 then none else s.procs.get? p.Pid.toNat

/-- Replace the state of a child. -/
def Sim.setChild (s : Sim) (p : Process) (c : Child) : Sim :=
  { s with procs := s.procs.set p.Pid.toNat c }

/-- The simulated system, an assumption on the behaviour of package `os`
(which is not part of the repository). `Start` always launches a running
child. `Kill` turns a running child into a zombie, succeeds on a zombie, and
fails on a reaped child. `Wait` blocks on a running child (the emulator does
not exit by itself), reaps a zombie, and fails on a reaped child. -/
def simOS : OS Sim where
  StderrPipe s _ := (s, none)
  Start s _ := ({ s with procs := s.procs ++ [Child.running] }, .ok ⟨s.procs.length⟩)
  race s _ := (s, if s.opens then .connected else .timeout)
  Kill s p :=
    match s.child p with
    | some .running => (s.setChild p .killed, none)
    | some .killed => (s, none)
    | _ => (s, some ⟨"os: process already finished"⟩)
  Wait s p :=
    match s.child p with
    | some .running => none
    | some .killed => some (s.setChild p .reaped, none)
    | _ => some (s, some ⟨"wait: no child processes"⟩)

/-! ## The phases of `New`

The body of `New` after the configuration check, cut at its comments
`// log output`, `// start command` and `// try to connect`. They are used to
reason about `New` phase by phase; `New_eq_phases` shows that `New` is their
composition. -/

/-- The handle `New` builds for the first `GOPATH` component `gopath` and the
port `port` (db.go, lines 40-52), with the concatenations carried out. -/
def javaDB (gopath : String) (port : Int) : DB :=
  { addr := "localhost:" ++ formatInt port
    cmd :=
      { name := "java"
        arg :=
          [ "-Djava.library.path=" ++ gopath
              ++ "/src/github.com/groupme/dynamodbtest/DynamoDbLocal_lib",
            "-jar",
            gopath ++ "/src/github.com/groupme/dynamodbtest/DynamoDBLocal.jar",
            "-port",
            formatInt port,
            "-inMemory" ]
        Process := none } }

/-- Lines 75-97 of `New`: the race between readiness and the timer. -/
def connectPhase {σ : Type} (os : OS σ) (db : DB) (w : World σ) :
    Outcome σ (Option DB × Option GoError) :=
  let rc := os.race w.os db.addr
  let w := { w with os := rc.1, trace := w.trace ++ [.goDial db.addr] }
  match rc.2 with
  | .connected => .ok (w, some db, none)
  | .timeout =>
    match Close os db w with
    | .error a => .error a
    | .ok r => .ok (r.1, none, some .ErrConnectTimeout)

/-- Lines 69-97 of `New`: start the command, then `connectPhase`. -/
def startPhase {σ : Type} (os : OS σ) (db : DB) (w : World σ) :
    Outcome σ (Option DB × Option GoError) :=
  let st := os.Start w.os db.cmd
  let w := { w with os := st.1, trace := w.trace ++ [.start db.cmd] }
  match st.2 with
  | .error err => .ok (w, none, some (.os err))
  | .ok proc => connectPhase os { db with cmd := { db.cmd with Process := some proc } } w

/-- Lines 54-97 of `New`: the optional log forwarding, then `startPhase`. -/
def logPhase {σ : Type} (os : OS σ) (port : Int) (db : DB) (w : World σ) :
    Outcome σ (Option DB × Option GoError) :=
  let pipe : World σ × Option OSError :=
    if w.LogOutput then
      let r := os.StderrPipe w.os db.cmd
      ({ w with os := r.1, trace := w.trace ++ [.stderrPipe db.cmd] }, r.2)
    else (w, none)
  match pipe.2 with
  | some err => .ok (pipe.1, none, some (.os err))
  | none =>
    startPhase os db
      (if w.LogOutput then { pipe.1 with trace := pipe.1.trace ++ [.goLog port] } else pipe.1)

/-- A system whose child the caller is not permitted to signal (it runs under
another user id) and which exits by itself: `Kill` fails with the error of
`EPERM`, `operation not permitted`, and `Wait` returns without error once the
child has exited. -/
def deniedOS : OS Unit where
  StderrPipe s _ := (s, none)
  Start s _ := (s, .ok ⟨7⟩)
  race s _ := (s, .connected)
  Kill s _ := (s, some ⟨"operation not permitted"⟩)
  Wait s _ := some (s, none)

/-- A fresh process on the simulated system: counter 0, nothing done yet. -/
def freshWorld (logOutput : Bool) (gopath : Option String) (opens : Bool) : World Sim :=
  { portCount := 0, LogOutput := logOutput, GOPATH := gopath,
    os := { procs := [], opens := opens }, trace := [] }

/-- The handle of the first child on a fresh simulated system with
`GOPATH=/go`. -/
def sampleHandle : DB :=
  { javaDB "/go" 8000 with cmd := { (javaDB "/go" 8000).cmd with Process := some ⟨0⟩ } }

/-- The world after a successful first `New` on `freshWorld false (some "/go") true`. -/
def readyWorld : World Sim :=
  { portCount := 1, LogOutput := false, GOPATH := some "/go",
    os := { procs := [.running], opens := true },
    trace := [.start (javaDB "/go" 8000).cmd, .goDial "localhost:8000"] }

/-- The world after a first `New` that timed out on
`freshWorld false (some "/go") false`. -/
def timedOutWorld : World Sim :=
  { portCount := 1, LogOutput := false, GOPATH := some "/go",
    os := { procs := [.reaped], opens := false },
    trace := [.start (javaDB "/go" 8000).cmd, .goDial "localhost:8000", .kill ⟨0⟩,
      .println "Killing dynamodb pid= 0  err= <nil>\n", .wait ⟨0⟩] }

/-- The handle of the second child, started by the third call of `New`. -/
def sampleHandle2 : DB :=
  { javaDB "/go" 8002 with cmd := { (javaDB "/go" 8002).cmd with Process := some ⟨1⟩ } }

/-- Three calls: `GOPATH=/go`, then `GOPATH` unset, then `GOPATH=/go`. -/
def sampleCalls : List (Bool × Option String) :=
  [(false, some "/go"), (false, none), (false, some "/go")]

/-- The world after `sampleCalls` on `freshWorld false none true`. -/
def twoReadyWorld : World Sim :=
  { portCount := 3, LogOutput := false, GOPATH := some "/go",
    os := { procs := [.running, .running], opens := true },
    trace := [.start (javaDB "/go" 8000).cmd, .goDial "localhost:8000",
      .start (javaDB "/go" 8002).cmd, .goDial "localhost:8002"] }

/-- The world after the first `Close` of `sampleHandle` in `readyWorld`. -/
def closedWorld : World Sim :=
  { readyWorld with
    os := { procs := [.reaped], opens := true }
    trace := readyWorld.trace ++
      [.kill ⟨0⟩, .println "Killing dynamodb pid= 0  err= <nil>\n", .wait ⟨0⟩] }

/-- A fresh process on `deniedOS` with `GOPATH=/go`. -/
def deniedFresh : World Unit :=
  { portCount := 0, LogOutput := false, GOPATH := some "/go", os := (), trace := [] }

/-- The handle `New` returns on `deniedFresh`. -/
def deniedHandle : DB :=
  { javaDB "/go" 8000 with cmd := { (javaDB "/go" 8000).cmd with Process := some ⟨7⟩ } }

/-- The world after `New` on `deniedFresh`. -/
def deniedWorld : World Unit :=
  { deniedFresh with
    portCount := 1
    trace := [.start (javaDB "/go" 8000).cmd, .goDial "localhost:8000"] }

/-! ## Machine-integer facts -/

theorem wrapInt_of_mem (w : Nat) (x : Int) (hw : 0 < w)
    (hlo : -2 ^ (w - 1) ≤ x) (hhi : x < 2 ^ (w - 1)) : wrapInt w x = x := by
  unfold wrapInt
  have h2 : (2 : Int) ^ w = 2 * 2 ^ (w - 1) := by
    obtain ⟨k, rfl⟩ : ∃ k, w = k + 1 := ⟨w - 1, by omega⟩
    simp [pow_succ, mul_comm]
  rw [h2]
  generalize (2 : Int) ^ (w - 1) = h at *
  rw [Int.emod_eq_of_lt] <;> omega

theorem newPort_eq (intBits : Nat) (c : Int) (hw : intBits = 32 ∨ intBits = 64)
    (hlo : -2 ^ (intBits - 1) ≤ c) (hhi : 8000 + c < 2 ^ (intBits - 1)) :
    newPort intBits c = (8000 + c, c + 1) := by
  have h64 : addInt64 8000 c = 8000 + c ∧ addInt64 c 1 = c + 1 := by
    unfold addInt64
    rcases hw with rfl | rfl <;> norm_num at hlo hhi <;>
      constructor <;> apply wrapInt_of_mem <;> norm_num <;> omega
  have hint : toInt intBits (8000 + c) = 8000 + c := by
    unfold toInt
    apply wrapInt_of_mem _ _ (by rcases hw with rfl | rfl <;> decide) (by linarith) hhi
  simp [newPort, h64.1, h64.2, hint]

theorem newPorts_eq (intBits : Nat) (hw : intBits = 32 ∨ intBits = 64) :
    ∀ (n : Nat) (c : Int), -2 ^ (intBits - 1) ≤ c → 8000 + c + n ≤ 2 ^ (intBits - 1) →
      newPorts intBits n c = ((List.range n).map (fun (k : Nat) => 8000 + c + (k : Int)), c + n) := by
  intro n
  induction n with
  | zero => intro c _ _; simp [newPorts]
  | succ n ih =>
    intro c hlo hhi
    push_cast at hhi
    have h1 := newPort_eq intBits c hw hlo (by linarith)
    have h2 := ih (c + 1) (by linarith) (by linarith)
    simp only [newPorts, h1, h2, List.range_succ_eq_map, List.map_cons, List.map_map]
    refine Prod.ext ?_ ?_
    · simp only [List.cons.injEq]
      refine ⟨by simp, List.map_congr_left fun k _ => ?_⟩
      simp only [Function.comp]
      push_cast
      ring
    · simp only
      push_cast
      ring

/-! ## Decimal formatting is injective -/

theorem digitChar_parseStep (b : Bool) (a k : Nat) (hk : k < 10) :
    parseStep (b, a) (Nat.digitChar k) = (b, 10 * a + k) := by
  interval_cases k <;> simp [parseStep, Nat.digitChar]

theorem toDigitsCore_foldl (b : Bool) :
    ∀ (fuel n : Nat) (ds : List Char), n < fuel →
      (Nat.toDigitsCore 10 fuel n ds).foldl parseStep (b, 0) = ds.foldl parseStep (b, n) := by
  intro fuel
  induction fuel with
  | zero => intro n ds h; omega
  | succ fuel ih =>
    intro n ds h
    simp only [Nat.toDigitsCore]
    split
    · rename_i h0
      have hn : n % 10 = n := by omega
      rw [List.foldl_cons, digitChar_parseStep b 0 (n % 10) (Nat.mod_lt _ (by decide)), hn]
      simp
    · rename_i h0
      rw [ih (n / 10) _ (by omega), List.foldl_cons,
        digitChar_parseStep b (n / 10) (n % 10) (Nat.mod_lt _ (by decide))]
      congr 2
      omega

theorem parseInt_formatInt (i : Int) : parseInt (formatInt i) = (decide (i < 0), i.natAbs) := by
  unfold parseInt formatInt
  split
  · rename_i h
    simp only [String.data_append, Nat.repr, Nat.toDigits, List.asString]
    show List.foldl parseStep (false, 0) (['-'] ++ _) = _
    rw [List.foldl_append]
    simp only [List.foldl_cons, List.foldl_nil]
    have : parseStep (false, 0) '-' = (true, 0) := by decide
    rw [this, toDigitsCore_foldl true _ _ _ (Nat.lt_succ_self _)]
    simp [h]
  · rename_i h
    simp only [Nat.repr, Nat.toDigits, List.asString]
    rw [toDigitsCore_foldl false _ _ _ (Nat.lt_succ_self _)]
    simp only [List.foldl_nil, Prod.mk.injEq]
    refine ⟨by simp [h], ?_⟩
    omega

theorem formatInt_injective : Function.Injective formatInt := by
  intro i j h
  have hi := parseInt_formatInt i
  have hj := parseInt_formatInt j
  rw [h, hj] at hi
  simp only [Prod.mk.injEq, decide_eq_decide] at hi
  omega

theorem addr_injective (i j : Int)
    (h : "localhost:" ++ formatInt i = "localhost:" ++ formatInt j) : i = j := by
  apply formatInt_injective
  have := congrArg String.data h
  simp only [String.data_append, List.append_cancel_left_eq] at this
  exact String.ext this

/-! ## Facts about `Split` -/

theorem splitChars_eq (sep : Char) (cs : List Char) :
    ∃ tl, splitChars sep cs = cs.takeWhile (fun c => c != sep) :: tl := by
  induction cs with
  | nil => exact ⟨[], rfl⟩
  | cons c cs ih =>
    obtain ⟨tl, h⟩ := ih
    by_cases hc : c = sep
    · exact ⟨splitChars sep cs, by simp [splitChars, hc]⟩
    · exact ⟨tl, by simp [splitChars, hc, h]⟩

theorem Split_eq (s : String) (sep : Char) :
    ∃ tl, Split s sep = String.mk (s.data.takeWhile (fun c => c != sep)) :: tl := by
  obtain ⟨tl, h⟩ := splitChars_eq sep s.data
  exact ⟨tl.map String.mk, by simp [Split, h]⟩

theorem Split_of_head? (s : String) (sep : Char) (g : String)
    (h : (Split s sep).head? = some g) : ∃ tl, Split s sep = g :: tl := by
  obtain ⟨tl, h1⟩ := Split_eq s sep
  rw [h1] at h
  simp only [List.head?_cons, Option.some.injEq] at h
  exact ⟨tl, h ▸ h1⟩

/-! ## The configuration check of `New` -/

/-- C3. `New` returns `ErrGopath` exactly when the first colon-separated
component `g` of `GOPATH` (element 0 of `strings.Split(os.Getenv("GOPATH"), ":")`)
is empty. In that case the handle is nil and the world is the initial one
with only the port counter advanced: nothing is added to the trace, so no
child is started. When `g` is not empty, no outcome of `New` carries
`ErrGopath`. -/
theorem New_ErrGopath {σ : Type} (os : OS σ) (intBits : Nat) (w : World σ) (g : String)
    (hg : (Split (Getenv w.GOPATH) ':').head? = some g) :
    (g = "" → New os intBits w =
        .ok ({ w with portCount := (newPort intBits w.portCount).2 }, none, some .ErrGopath))
    ∧ (g ≠ "" → ∀ w1 db, New os intBits w ≠ .ok (w1, db, some .ErrGopath)) := by
  obtain ⟨tl, hs⟩ := Split_of_head? _ _ _ hg
  constructor
  · intro h
    simp [New, hs, h]
  · intro h w1 db
    simp only [New, hs, h, if_false]
    split
    · simp
    · split
      · simp
      · split
        · simp
        · split
          · simp
          · simp

/-- Instances of C3 on the simulated system: `GOPATH` unset, empty, with an
empty first component, and with the first component `/go`. -/
theorem New_ErrGopath_witness :
    New simOS 64 (freshWorld false none true) =
        .ok ({ freshWorld false none true with portCount := 1 }, none, some .ErrGopath)
    ∧ New simOS 64 (freshWorld false (some "") true) =
        .ok ({ freshWorld false (some "") true with portCount := 1 }, none, some .ErrGopath)
    ∧ New simOS 64 (freshWorld false (some ":/opt/go") true) =
        .ok ({ freshWorld false (some ":/opt/go") true with portCount := 1 }, none,
          some .ErrGopath)
    ∧ ∀ w1 db, New simOS 64 (freshWorld false (some "/go:/opt/go") true) ≠
        .ok (w1, db, some .ErrGopath) :=
  ⟨(New_ErrGopath simOS 64 (freshWorld false none true) "" (by decide)).1 rfl,
   (New_ErrGopath simOS 64 (freshWorld false (some "") true) "" (by decide)).1 rfl,
   (New_ErrGopath simOS 64 (freshWorld false (some ":/opt/go") true) "" (by decide)).1 rfl,
   (New_ErrGopath simOS 64 (freshWorld false (some "/go:/opt/go") true) "/go" (by decide)).2
     (by decide)⟩

/-! ## The command built by `New` -/

theorem takeWhile_append_sep (q : Char → Bool) (x : Char) (hx : q x = false) (t : List Char) :
    ∀ l : List Char, (l.takeWhile q ++ x :: t).takeWhile q = l.takeWhile q := by
  intro l
  induction l with
  | nil => simp [List.takeWhile, hx]
  | cons a l ih =>
    by_cases ha : q a = true
    · simp [List.takeWhile, ha, ih]
    · simp [List.takeWhile, ha, hx]

theorem takeWhile_idem (q : Char → Bool) :
    ∀ l : List Char, (l.takeWhile q).takeWhile q = l.takeWhile q := by
  intro l
  induction l with
  | nil => rfl
  | cons a l ih =>
    by_cases ha : q a = true
    · simp [List.takeWhile, ha, ih]
    · simp [List.takeWhile, ha]

theorem Split_head?_stable (s : String) (g : String) (h : (Split s ':').head? = some g) :
    (Split g ':').head? = some g ∧
      ∀ tail : String, (Split (g ++ ":" ++ tail) ':').head? = some g := by
  obtain ⟨tl, h1⟩ := Split_eq s ':'
  rw [h1] at h
  simp only [List.head?_cons, Option.some.injEq] at h
  subst h
  constructor
  · obtain ⟨tl2, h2⟩ := Split_eq (String.mk (s.data.takeWhile fun c => c != ':')) ':'
    rw [h2]
    simp [takeWhile_idem]
  · intro tail
    obtain ⟨tl2, h2⟩ :=
      Split_eq (String.mk (s.data.takeWhile fun c => c != ':') ++ ":" ++ tail) ':'
    rw [h2]
    simp only [List.head?_cons, Option.some.injEq, String.data_append]
    show String.mk (List.takeWhile _ (List.takeWhile _ s.data ++ [':'] ++ tail.data)) = _
    rw [List.append_assoc, List.singleton_append, takeWhile_append_sep _ ':' (by decide)]

theorem lib_path (g : String) :
    "-Djava.library.path=" ++ (g ++ "/src/github.com/groupme/dynamodbtest/") ++ "DynamoDbLocal_lib"
      = "-Djava.library.path=" ++ g ++ "/src/github.com/groupme/dynamodbtest/DynamoDbLocal_lib" := by
  apply String.ext
  simp only [String.data_append, List.append_assoc]
  rfl

theorem jar_path (g : String) :
    g ++ "/src/github.com/groupme/dynamodbtest/" ++ "DynamoDBLocal.jar"
      = g ++ "/src/github.com/groupme/dynamodbtest/DynamoDBLocal.jar" := by
  apply String.ext
  simp only [String.data_append, List.append_assoc]
  rfl

theorem New_eq_phases {σ : Type} (os : OS σ) (intBits : Nat) (w : World σ) (g : String)
    (tl : List String) (hs : Split (Getenv w.GOPATH) ':' = g :: tl) (hne : g ≠ "") :
    New os intBits w =
      logPhase os (newPort intBits w.portCount).1 (javaDB g (newPort intBits w.portCount).1)
        { w with portCount := (newPort intBits w.portCount).2 } := by
  simp only [New, hs, hne, if_false, Command, lib_path, jar_path]
  rfl

/-! ## `Close` -/

theorem Sprintln_kill (pid : Int) (e : Option OSError) :
    Sprintln [.str "Killing dynamodb pid=", .int pid, .str " err=", .err e]
      = "Killing dynamodb pid= " ++ formatInt pid ++ "  err= "
          ++ (match e with | none => "<nil>" | some x => x.msg) ++ "\n" := by
  apply String.ext
  cases e <;>
    simp only [Sprintln, doPrintln, Operand.format, String.data_append, List.append_assoc] <;> rfl

theorem Close_of_wait {σ : Type} (os : OS σ) (db : DB) (p : Process) (w : World σ)
    (r : σ × Option OSError) (hp : db.cmd.Process = some p)
    (hw : os.Wait (os.Kill w.os p).1 p = some r) :
    Close os db w =
      .ok ({ w with
              os := r.1
              trace := w.trace ++
                [.kill p,
                 .println (Sprintln [.str "Killing dynamodb pid=", .int p.Pid, .str " err=",
                    .err (os.Kill w.os p).2]),
                 .wait p] },
           r.2.map GoError.os) := by
  simp only [Close, hp, hw]

theorem Close_trace {σ : Type} (os : OS σ) (db : DB) (w : World σ) :
    ∃ evs, (Close os db w).world.trace = w.trace ++ evs ∧ evs.filterMap Event.cmd? = [] := by
  unfold Close
  cases db.cmd.Process with
  | none => exact ⟨[], by simp [Outcome.world], rfl⟩
  | some p =>
    simp only
    cases os.Wait (os.Kill w.os p).1 p with
    | none => exact ⟨_, rfl, rfl⟩
    | some r => exact ⟨_, rfl, rfl⟩

/-! ## The phases of `New` -/

theorem connectPhase_trace {σ : Type} (os : OS σ) (db : DB) (w : World σ) :
    ∃ evs, (connectPhase os db w).world.trace = w.trace ++ evs
      ∧ evs.filterMap Event.cmd? = [] := by
  unfold connectPhase
  simp only
  cases (os.race w.os db.addr).2 with
  | connected => exact ⟨_, rfl, rfl⟩
  | timeout =>
    simp only
    obtain ⟨evs, h1, h2⟩ := Close_trace os db
      { w with os := (os.race w.os db.addr).1, trace := w.trace ++ [.goDial db.addr] }
    refine ⟨.goDial db.addr :: evs, ?_, by simpa [Event.cmd?] using h2⟩
    revert h1
    cases Close os db
      { w with os := (os.race w.os db.addr).1, trace := w.trace ++ [.goDial db.addr] } <;>
      simp [Outcome.world]

theorem startPhase_trace {σ : Type} (os : OS σ) (db : DB) (w : World σ) :
    ∃ evs, (startPhase os db w).world.trace = w.trace ++ evs
      ∧ evs.filterMap Event.cmd? = [db.cmd] := by
  unfold startPhase
  simp only
  cases (os.Start w.os db.cmd).2 with
  | error e => exact ⟨_, rfl, rfl⟩
  | ok proc =>
    simp only
    obtain ⟨evs, h1, h2⟩ := connectPhase_trace os
      { db with cmd := { db.cmd with Process := some proc } }
      { w with os := (os.Start w.os db.cmd).1, trace := w.trace ++ [.start db.cmd] }
    exact ⟨.start db.cmd :: evs, by simpa using h1, by simpa [Event.cmd?] using h2⟩

theorem logPhase_trace {σ : Type} (os : OS σ) (port : Int) (db : DB) (w : World σ) :
    ∃ evs, (logPhase os port db w).world.trace = w.trace ++ evs
      ∧ evs.filterMap Event.cmd? ≠ [] ∧ ∀ c ∈ evs.filterMap Event.cmd?, c = db.cmd := by
  unfold logPhase
  cases hlog : w.LogOutput with
  | false =>
    simp only [Bool.false_eq_true, if_false]
    obtain ⟨evs, h1, h2⟩ := startPhase_trace os db w
    exact ⟨evs, h1, by simp [h2], by simp [h2]⟩
  | true =>
    simp only [if_true]
    cases (os.StderrPipe w.os db.cmd).2 with
    | some e => exact ⟨[.stderrPipe db.cmd], rfl, by simp [Event.cmd?], by simp [Event.cmd?]⟩
    | none =>
      simp only
      obtain ⟨evs, h1, h2⟩ := startPhase_trace os db
        { w with os := (os.StderrPipe w.os db.cmd).1,
                 trace := w.trace ++ [.stderrPipe db.cmd] ++ [.goLog port] }
      exact ⟨.stderrPipe db.cmd :: .goLog port :: evs, by simpa [hlog] using h1,
        by simp [Event.cmd?], by simp [Event.cmd?, h2]⟩

theorem connectPhase_handle {σ : Type} (os : OS σ) (db : DB) (w w1 : World σ) (h : DB)
    (e : Option GoError) (hr : connectPhase os db w = .ok (w1, some h, e)) :
    h = db ∧ e = none := by
  unfold connectPhase at hr
  simp only at hr
  cases hrc : (os.race w.os db.addr).2 with
  | connected =>
    rw [hrc] at hr
    simp only [Except.ok.injEq, Prod.mk.injEq, Option.some.injEq] at hr
    exact ⟨hr.2.1.symm, hr.2.2.symm⟩
  | timeout =>
    rw [hrc] at hr
    simp only at hr
    split at hr <;> simp at hr

theorem startPhase_handle {σ : Type} (os : OS σ) (db : DB) (w w1 : World σ) (h : DB)
    (e : Option GoError) (hr : startPhase os db w = .ok (w1, some h, e)) :
    (∃ proc, h = { db with cmd := { db.cmd with Process := some proc } }) ∧ e = none := by
  unfold startPhase at hr
  simp only at hr
  cases hst : (os.Start w.os db.cmd).2 with
  | error x => rw [hst] at hr; simp at hr
  | ok proc =>
    rw [hst] at hr
    obtain ⟨h1, h2⟩ := connectPhase_handle os _ _ _ _ _ hr
    exact ⟨⟨proc, h1⟩, h2⟩

theorem logPhase_handle {σ : Type} (os : OS σ) (port : Int) (db : DB) (w w1 : World σ)
    (h : DB) (e : Option GoError) (hr : logPhase os port db w = .ok (w1, some h, e)) :
    (∃ proc, h = { db with cmd := { db.cmd with Process := some proc } }) ∧ e = none := by
  unfold logPhase at hr
  simp only at hr
  split at hr
  · simp at hr
  · exact startPhase_handle os _ _ _ _ _ hr

/-! ## The readiness race of `New` -/

/-- C6. Let `New` run with a non-empty first `GOPATH` component `g`, a log
pipe that (if requested) is set up, and a `Start` that yields the process
`proc`; let `w3` be the world when the `select` has fired and `h` the handle.
If the `connected` case fires, `New` returns `h` with a nil error in `w3`:
nothing is killed or waited for. If the `timeout` case fires, `New` calls
`Close` on `h` in `w3`: whatever `Close` returns, `New` returns a nil handle
and `ErrConnectTimeout` in the world `Close` leaves; that `Close` kills and
then waits for `proc` and returns the outcome of the wait; if the wait never
returns, neither does `New`. -/
theorem New_race {σ : Type} (os : OS σ) (intBits : Nat) (w : World σ) (g : String)
    (proc : Process)
    (hg : (Split (Getenv w.GOPATH) ':').head? = some g) (hne : g ≠ "") :
    let p := (newPort intBits w.portCount).1
    let db := javaDB g p
    let s1 := if w.LogOutput then (os.StderrPipe w.os db.cmd).1 else w.os
    let s2 := (os.Start s1 db.cmd).1
    let s3 := (os.race s2 db.addr).1
    let tr := w.trace ++ (if w.LogOutput then [Event.stderrPipe db.cmd, Event.goLog p] else [])
      ++ [Event.start db.cmd, Event.goDial db.addr]
    let h : DB := { db with cmd := { db.cmd with Process := some proc } }
    let w3 : World σ :=
      { w with portCount := (newPort intBits w.portCount).2, os := s3, trace := tr }
    (w.LogOutput = true → (os.StderrPipe w.os db.cmd).2 = none) →
    (os.Start s1 db.cmd).2 = .ok proc →
      ((os.race s2 db.addr).2 = .connected → New os intBits w = .ok (w3, some h, none))
      ∧ ((os.race s2 db.addr).2 = .timeout →
          (∀ r, Close os h w3 = .ok r →
            New os intBits w = .ok (r.1, none, some .ErrConnectTimeout))
          ∧ (∀ r, os.Wait (os.Kill s3 proc).1 proc = some r →
              ∃ text, Close os h w3 =
                .ok ({ w3 with os := r.1,
                               trace := tr ++ [.kill proc, .println text, .wait proc] },
                     r.2.map GoError.os))
          ∧ (os.Wait (os.Kill s3 proc).1 proc = none →
              ∃ w4, New os intBits w = .error (.blocked, w4))) := by
  dsimp only
  intro hpipe hstart
  obtain ⟨tl, hs⟩ := Split_of_head? _ _ _ hg
  rw [New_eq_phases os intBits w g tl hs hne]
  cases hlog : w.LogOutput with
  | false =>
    simp only [hlog, Bool.false_eq_true, if_false, List.append_nil] at hstart ⊢
    simp only [logPhase, startPhase, connectPhase, hlog, hstart, Bool.false_eq_true, if_false]
    refine ⟨fun hr => by simp [hr], fun hr => ⟨fun r hc => by simp [hr, hc], fun r hwt => ?_,
      fun hwt => ?_⟩⟩
    · exact ⟨_, Close_of_wait os _ proc _ r rfl hwt⟩
    · simp [hr, Close, hwt]
  | true =>
    have hp := hpipe hlog
    simp only [hlog, if_true] at hstart ⊢
    simp only [logPhase, startPhase, connectPhase, hlog, hp, hstart, if_true]
    refine ⟨fun hr => by simp [hr], fun hr => ⟨fun r hc => ?_, fun r hwt => ?_,
      fun hwt => ?_⟩⟩
    · simp only [List.append_assoc, List.cons_append, List.nil_append] at hc ⊢
      simp [hr, hc]
    · exact ⟨_, Close_of_wait os _ proc _ r rfl hwt⟩
    · simp [hr, Close, hwt]

/-- Instances of C6 on the simulated system: a child that never opens its
port, and a child that does. -/
theorem New_race_witness :
    New simOS 64 (freshWorld false (some "/go") false)
        = .ok (timedOutWorld, none, some .ErrConnectTimeout)
    ∧ New simOS 64 (freshWorld false (some "/go") true) = .ok (readyWorld, some sampleHandle, none) :=
  ⟨((New_race simOS 64 (freshWorld false (some "/go") false) "/go" ⟨0⟩ (by decide) (by decide)
      (by decide) (by decide)).2 (by decide)).1 (timedOutWorld, none) (by decide),
   (New_race simOS 64 (freshWorld false (some "/go") true) "/go" ⟨0⟩ (by decide) (by decide)
      (by decide) (by decide)).1 (by decide)⟩

/-! ## The command and the address -/

/-- C9. When the first colon-separated component `g` of `GOPATH` is not
empty and `p` is the port allocated by the call, every command `New` hands to
the operating system (by `StderrPipe` or `Start`) is the program `java` with
the argument list `-Djava.library.path=<g>/src/github.com/groupme/dynamodbtest/DynamoDbLocal_lib`,
`-jar`, `<g>/src/github.com/groupme/dynamodbtest/DynamoDBLocal.jar`, `-port`,
`p` in decimal, `-inMemory`, in that order, and there is at least one such
action; a handle that is returned has the address `localhost:<p>` with the
same `p` and holds that command. The command depends on `GOPATH` through `g`
alone, and `g` is the first component of `g` itself and of `g:tail` for every
`tail`. -/
theorem New_command {σ : Type} (os : OS σ) (intBits : Nat) (w : World σ) (g : String)
    (hg : (Split (Getenv w.GOPATH) ':').head? = some g) (hne : g ≠ "") :
    let p := (newPort intBits w.portCount).1
    let cmd : Cmd :=
      { name := "java"
        arg :=
          [ "-Djava.library.path=" ++ g ++ "/src/github.com/groupme/dynamodbtest/DynamoDbLocal_lib",
            "-jar",
            g ++ "/src/github.com/groupme/dynamodbtest/DynamoDBLocal.jar",
            "-port",
            formatInt p,
            "-inMemory" ]
        Process := none }
    (∃ evs, (New os intBits w).world.trace = w.trace ++ evs
        ∧ evs.filterMap Event.cmd? ≠ [] ∧ ∀ c ∈ evs.filterMap Event.cmd?, c = cmd)
    ∧ (∀ w1 db e, New os intBits w = .ok (w1, some db, e) →
        db.addr = "localhost:" ++ formatInt p
          ∧ ∃ proc, db.cmd = { cmd with Process := some proc })
    ∧ (Split g ':').head? = some g
    ∧ ∀ tail : String, (Split (g ++ ":" ++ tail) ':').head? = some g := by
  intro p cmd
  obtain ⟨tl, hs⟩ := Split_of_head? _ _ _ hg
  rw [New_eq_phases os intBits w g tl hs hne]
  refine ⟨?_, ?_, Split_head?_stable _ _ hg⟩
  · exact logPhase_trace os p (javaDB g p) _
  · intro w1 db e hr
    obtain ⟨⟨proc, h1⟩, _⟩ := logPhase_handle os _ _ _ _ _ _ hr
    subst h1
    exact ⟨rfl, proc, rfl⟩

/-- Instance of C9 on the simulated system, with `GOPATH=/go:/opt/go`, the
counter 0 and log forwarding on. -/
theorem New_command_witness :
    (∃ evs, (New simOS 64 (freshWorld true (some "/go:/opt/go") true)).world.trace = [] ++ evs
        ∧ evs.filterMap Event.cmd? ≠ []
        ∧ ∀ c ∈ evs.filterMap Event.cmd?, c =
          { name := "java"
            arg :=
              [ "-Djava.library.path=/go/src/github.com/groupme/dynamodbtest/DynamoDbLocal_lib",
                "-jar", "/go/src/github.com/groupme/dynamodbtest/DynamoDBLocal.jar",
                "-port", "8000", "-inMemory" ]
            Process := none })
    ∧ (New simOS 64 (freshWorld true (some "/go:/opt/go") true)).world.trace =
        [.stderrPipe (javaDB "/go" 8000).cmd, .goLog 8000, .start (javaDB "/go" 8000).cmd,
          .goDial "localhost:8000"] :=
  ⟨(New_command simOS 64 (freshWorld true (some "/go:/opt/go") true) "/go" (by decide)
      (by decide)).1, by decide⟩

/-- C5. `URL` returns `http://` followed directly by the address of the
handle; it is a function of the handle alone, so it changes nothing. For a
handle returned by `New`, it is `http://localhost:<p>` with `p`, in decimal,
the port allocated by that call. -/
theorem URL_eq (db : DB) :
    URL db = "http://" ++ db.addr
    ∧ ∀ {σ : Type} (os : OS σ) (intBits : Nat) (w w1 : World σ) (e : Option GoError),
        New os intBits w = .ok (w1, some db, e) →
          URL db = "http://localhost:" ++ formatInt (newPort intBits w.portCount).1 := by
  have hurl : URL db = "http://" ++ db.addr := by
    apply String.ext
    simp [URL, Sprint, doPrint, Operand.format, Operand.isString]
  refine ⟨hurl, ?_⟩
  intro σ os intBits w w1 e hr
  obtain ⟨tl, hs⟩ := Split_eq (Getenv w.GOPATH) ':'
  by_cases hne : String.mk ((Getenv w.GOPATH).data.takeWhile fun c => c != ':') = ""
  · simp [New, hs, hne] at hr
  · rw [New_eq_phases os intBits w _ tl hs hne] at hr
    obtain ⟨⟨proc, h1⟩, _⟩ := logPhase_handle os _ _ _ _ _ _ hr
    rw [hurl, h1]
    apply String.ext
    simp only [javaDB, String.data_append]
    rfl

/-- Instance of C5: the handle of the first `New` on a fresh simulated
system. -/
theorem URL_eq_witness :
    New simOS 64 (freshWorld false (some "/go") true) = .ok (readyWorld, some sampleHandle, none)
    ∧ URL sampleHandle = "http://localhost:8000" :=
  ⟨by decide,
   (URL_eq sampleHandle).2 simOS 64 (freshWorld false (some "/go") true) readyWorld none
     (by decide)⟩

/-! ## `Close`: what is returned, and closing twice -/

/-- C4 (as amended). When the wait returns, `Close` returns exactly the
outcome of `Wait` (nil when the wait succeeds), whatever `Kill` returned; the
error of `Kill` appears only in the line printed between the two calls,
`Killing dynamodb pid= <pid>  err= <kill error or <nil>>`. -/
theorem Close_returns_wait {σ : Type} (os : OS σ) (db : DB) (p : Process) (w : World σ)
    (r : σ × Option OSError) (hp : db.cmd.Process = some p)
    (hw : os.Wait (os.Kill w.os p).1 p = some r) :
    Close os db w =
      .ok ({ w with
              os := r.1
              trace := w.trace ++
                [.kill p,
                 .println ("Killing dynamodb pid= " ++ formatInt p.Pid ++ "  err= "
                    ++ (match (os.Kill w.os p).2 with | none => "<nil>" | some x => x.msg)
                    ++ "\n"),
                 .wait p] },
           r.2.map GoError.os) := by
  rw [Close_of_wait os db p w r hp hw, Sprintln_kill]

/-- Instance of C4 (as amended): the second `Close` of the handle of a
successful `New` returns the error of `Wait`, not the error of `Kill`. -/
theorem Close_returns_wait_witness :
    Close simOS sampleHandle closedWorld =
      .ok ({ closedWorld with
              trace := closedWorld.trace ++
                [.kill ⟨0⟩,
                 .println "Killing dynamodb pid= 0  err= os: process already finished\n",
                 .wait ⟨0⟩] },
           some (.os ⟨"wait: no child processes"⟩)) :=
  Close_returns_wait simOS sampleHandle ⟨0⟩ closedWorld
    (closedWorld.os, some ⟨"wait: no child processes"⟩) (by decide) (by decide)

/-- C4 (as stated) fails. On a child that the caller may not signal and that
exits by itself, `New` returns a handle, and `Close` of that handle has `Kill`
fail with `operation not permitted` and `Wait` succeed: `Close` prints the
kill error and returns nil. On the simulated system, after `New` and a first
`Close`, the second `Close` has `Kill` fail with
`os: process already finished` and returns the error of `Wait`,
`wait: no child processes`: the kill error is only printed. -/
theorem Close_kill_error_not_returned :
    (New deniedOS 64 deniedFresh = .ok (deniedWorld, some deniedHandle, none)
      ∧ Close deniedOS deniedHandle deniedWorld =
          .ok ({ deniedWorld with
                  trace := deniedWorld.trace ++
                    [.kill ⟨7⟩,
                     .println "Killing dynamodb pid= 7  err= operation not permitted\n",
                     .wait ⟨7⟩] },
               none))
    ∧ (New simOS 64 (freshWorld false (some "/go") true)
          = .ok (readyWorld, some sampleHandle, none)
      ∧ Close simOS sampleHandle readyWorld = .ok (closedWorld, none)
      ∧ Close simOS sampleHandle closedWorld =
          .ok ({ closedWorld with
                  trace := closedWorld.trace ++
                    [.kill ⟨0⟩,
                     .println "Killing dynamodb pid= 0  err= os: process already finished\n",
                     .wait ⟨0⟩] },
               some (.os ⟨"wait: no child processes"⟩))) := by
  decide

theorem Sim.child_setChild (s : Sim) (p : Process) (c0 c : Child)
    (h : s.child p = some c0) : (s.setChild p c).child p = some c := by
  unfold Sim.child at h ⊢
  split at h
  · simp at h
  · rename_i hneg
    have hlt : p.Pid.toNat < s.procs.length := by
      by_contra hge
      rw [List.get?_eq_none.mpr (by omega)] at h
      simp at h
    simp [Sim.setChild, hneg, List.getElem?_set_self, hlt]

theorem Close_running (db : DB) (p : Process) (w : World Sim)
    (hp : db.cmd.Process = some p) (hrun : w.os.child p = some .running) :
    Close simOS db w =
      .ok ({ w with
              os := (w.os.setChild p .killed).setChild p .reaped
              trace := w.trace ++
                [.kill p,
                 .println ("Killing dynamodb pid= " ++ formatInt p.Pid ++ "  err= " ++ "<nil>"
                    ++ "\n"),
                 .wait p] },
           none) := by
  have hk : simOS.Kill w.os p = (w.os.setChild p .killed, none) := by
    simp [simOS, hrun]
  have hkilled := Sim.child_setChild w.os p _ .killed hrun
  have hw1 : simOS.Wait (simOS.Kill w.os p).1 p
      = some ((w.os.setChild p .killed).setChild p .reaped, none) := by
    rw [hk]
    simp [simOS, hkilled]
  rw [Close_returns_wait simOS db p w _ hp hw1, hk]
  rfl

theorem Close_reaped (db : DB) (p : Process) (w : World Sim)
    (hp : db.cmd.Process = some p) (hre : w.os.child p = some .reaped) :
    Close simOS db w =
      .ok ({ w with
              trace := w.trace ++
                [.kill p,
                 .println ("Killing dynamodb pid= " ++ formatInt p.Pid ++ "  err= "
                    ++ "os: process already finished" ++ "\n"),
                 .wait p] },
           some (.os ⟨"wait: no child processes"⟩)) := by
  have hk : simOS.Kill w.os p = (w.os, some ⟨"os: process already finished"⟩) := by
    simp [simOS, hre]
  have hw1 : simOS.Wait (simOS.Kill w.os p).1 p
      = some (w.os, some ⟨"wait: no child processes"⟩) := by
    rw [hk]
    simp [simOS, hre]
  rw [Close_returns_wait simOS db p w _ hp hw1, hk]
  rfl

/-- C7. On the simulated system, where a child is running, then killed, then
reaped, and `Kill` and `Wait` on a reaped child each return an error at once:
the first `Close` of a handle whose child is running calls `Kill`, then
`Wait`, returns nil and leaves the child reaped; a second `Close` (indeed any
`Close` of a handle whose child is reaped) returns, without blocking or
panicking, the non-nil error of `Wait`. -/
theorem Close_twice (db : DB) (p : Process) (w : World Sim)
    (hp : db.cmd.Process = some p) (hrun : w.os.child p = some .running) :
    ∃ w1 w2 : World Sim,
      Close simOS db w = .ok (w1, none)
      ∧ w1.trace = w.trace ++
          [.kill p,
           .println ("Killing dynamodb pid= " ++ formatInt p.Pid ++ "  err= " ++ "<nil>" ++ "\n"),
           .wait p]
      ∧ w1.os.child p = some .reaped
      ∧ Close simOS db w1 = .ok (w2, some (.os ⟨"wait: no child processes"⟩))
      ∧ w2.trace = w1.trace ++
          [.kill p,
           .println ("Killing dynamodb pid= " ++ formatInt p.Pid ++ "  err= "
              ++ "os: process already finished" ++ "\n"),
           .wait p]
      ∧ w2.os = w1.os
      ∧ ∀ w3 : World Sim, w3.os.child p = some .reaped →
          ∃ w4 e, Close simOS db w3 = .ok (w4, some e) := by
  have hreaped : ((w.os.setChild p .killed).setChild p .reaped).child p = some .reaped :=
    Sim.child_setChild _ p _ .reaped (Sim.child_setChild w.os p _ .killed hrun)
  exact ⟨_, _, Close_running db p w hp hrun, rfl, hreaped,
    Close_reaped db p _ hp hreaped, rfl, rfl,
    fun w3 h3 => ⟨_, _, Close_reaped db p w3 hp h3⟩⟩

/-- Instance of C7: the handle and the world of a successful first `New`. -/
theorem Close_twice_witness :
    ∃ w1 w2 : World Sim,
      Close simOS sampleHandle readyWorld = .ok (w1, none)
      ∧ w1.trace = readyWorld.trace ++
          [.kill ⟨0⟩, .println "Killing dynamodb pid= 0  err= <nil>\n", .wait ⟨0⟩]
      ∧ w1.os.child ⟨0⟩ = some .reaped
      ∧ Close simOS sampleHandle w1 = .ok (w2, some (.os ⟨"wait: no child processes"⟩))
      ∧ w2.trace = w1.trace ++
          [.kill ⟨0⟩, .println "Killing dynamodb pid= 0  err= os: process already finished\n",
            .wait ⟨0⟩]
      ∧ w2.os = w1.os
      ∧ ∀ w3 : World Sim, w3.os.child ⟨0⟩ = some .reaped →
          ∃ w4 e, Close simOS sampleHandle w3 = .ok (w4, some e) :=
  Close_twice sampleHandle ⟨0⟩ readyWorld (by decide) (by decide)

/-! ## The port counter across `New` -/

theorem Close_portCount {σ : Type} (os : OS σ) (db : DB) (w : World σ) :
    (Close os db w).world.portCount = w.portCount := by
  unfold Close
  cases db.cmd.Process with
  | none => rfl
  | some p =>
    simp only
    cases os.Wait (os.Kill w.os p).1 p <;> rfl

theorem connectPhase_portCount {σ : Type} (os : OS σ) (db : DB) (w : World σ) :
    (connectPhase os db w).world.portCount = w.portCount := by
  unfold connectPhase
  simp only
  cases (os.race w.os db.addr).2 with
  | connected => rfl
  | timeout =>
    simp only
    have h := Close_portCount os db
      { w with os := (os.race w.os db.addr).1, trace := w.trace ++ [.goDial db.addr] }
    revert h
    cases Close os db
      { w with os := (os.race w.os db.addr).1, trace := w.trace ++ [.goDial db.addr] } <;>
      simp [Outcome.world]

theorem startPhase_portCount {σ : Type} (os : OS σ) (db : DB) (w : World σ) :
    (startPhase os db w).world.portCount = w.portCount := by
  unfold startPhase
  simp only
  cases (os.Start w.os db.cmd).2 with
  | error e => rfl
  | ok proc => simp only [connectPhase_portCount]

theorem logPhase_portCount {σ : Type} (os : OS σ) (port : Int) (db : DB) (w : World σ) :
    (logPhase os port db w).world.portCount = w.portCount := by
  unfold logPhase
  simp only
  split
  · split <;> rfl
  · rw [startPhase_portCount]
    split <;> rfl

theorem New_portCount {σ : Type} (os : OS σ) (intBits : Nat) (w : World σ) :
    (New os intBits w).world.portCount = (newPort intBits w.portCount).2 := by
  obtain ⟨tl, hs⟩ := Split_eq (Getenv w.GOPATH) ':'
  by_cases hne : String.mk ((Getenv w.GOPATH).data.takeWhile fun c => c != ':') = ""
  · simp [New, hs, hne, Outcome.world]
  · rw [New_eq_phases os intBits w _ tl hs hne, logPhase_portCount]

theorem New_handle_addr {σ : Type} (os : OS σ) (intBits : Nat) (w w1 : World σ) (db : DB)
    (e : Option GoError) (hr : New os intBits w = .ok (w1, some db, e)) :
    db.addr = "localhost:" ++ formatInt (newPort intBits w.portCount).1 := by
  obtain ⟨tl, hs⟩ := Split_eq (Getenv w.GOPATH) ':'
  by_cases hne : String.mk ((Getenv w.GOPATH).data.takeWhile fun c => c != ':') = ""
  · simp [New, hs, hne] at hr
  · rw [New_eq_phases os intBits w _ tl hs hne] at hr
    obtain ⟨⟨proc, h1⟩, _⟩ := logPhase_handle os _ _ _ _ _ _ hr
    rw [h1]
    rfl

theorem NewSeq_spec {σ : Type} (os : OS σ) (intBits : Nat) (hw : intBits = 32 ∨ intBits = 64) :
    ∀ (cfg : List (Bool × Option String)) (w w1 : World σ)
      (rs : List (Option DB × Option GoError)),
      -2 ^ (intBits - 1) ≤ w.portCount → 8000 + w.portCount + cfg.length ≤ 2 ^ (intBits - 1) →
      NewSeq os intBits cfg w = .ok (w1, rs) →
        w1.portCount = w.portCount + cfg.length ∧ rs.length = cfg.length
        ∧ ∀ (i : Nat) (db : DB) (e : Option GoError), rs.get? i = some (some db, e) →
            db.addr = "localhost:" ++ formatInt (8000 + w.portCount + i) := by
  intro cfg
  induction cfg with
  | nil =>
    intro w w1 rs _ _ h
    simp only [NewSeq, Except.ok.injEq, Prod.mk.injEq] at h
    obtain ⟨rfl, rfl⟩ := h
    simp
  | cons c cs ih =>
    intro w w1 rs hlo hhi h
    simp only [List.length_cons] at hhi
    push_cast at hhi
    have hnp := newPort_eq intBits w.portCount hw hlo (by linarith)
    simp only [NewSeq] at h
    cases hn : New os intBits { w with LogOutput := c.1, GOPATH := c.2 } with
    | error a => rw [hn] at h; simp at h
    | ok r =>
      rw [hn] at h
      simp only at h
      have hpc : r.1.portCount = w.portCount + 1 := by
        have := New_portCount os intBits { w with LogOutput := c.1, GOPATH := c.2 }
        rw [hn] at this
        simpa [Outcome.world, hnp] using this
      cases hrest : NewSeq os intBits cs r.1 with
      | error a => rw [hrest] at h; simp at h
      | ok rs1 =>
        rw [hrest] at h
        simp only [Except.ok.injEq, Prod.mk.injEq] at h
        obtain ⟨rfl, rfl⟩ := h
        obtain ⟨h1, h2, h3⟩ := ih r.1 rs1.1 rs1.2 (by rw [hpc]; linarith)
          (by rw [hpc]; linarith) hrest
        refine ⟨by rw [h1, hpc, List.length_cons]; push_cast; ring, by simp [h2], ?_⟩
        intro i db e hi
        cases i with
        | zero =>
          simp only [List.get?_cons_zero, Option.some.injEq] at hi
          have := New_handle_addr os intBits _ r.1 db e (by rw [hn, ← hi])
          simpa [hnp] using this
        | succ j =>
          simp only [List.get?_cons_succ] at hi
          rw [h3 j db e hi, hpc]
          congr 2
          push_cast
          ring

/-! ## Sequential allocation -/

/-- C8 (as amended). For every counter value `c` such that `c` and
`8000 + c` are representable in the `int` of the platform (32 or 64 bits),
`newPort` returns `8000 + c` and leaves the counter at `c + 1`; starting from
the counter 0, the `k`-th sequential call (`k = 0, 1, 2, ...`) returns
`8000 + k` as long as `8000 + k` is representable in `int`. -/
theorem newPort_spec (intBits : Nat) (c : Int) (hw : intBits = 32 ∨ intBits = 64)
    (hlo : -2 ^ (intBits - 1) ≤ c) (hhi : 8000 + c < 2 ^ (intBits - 1)) :
    newPort intBits c = (8000 + c, c + 1)
    ∧ ∀ k : Nat, 8000 + (k : Int) < 2 ^ (intBits - 1) →
        (newPorts intBits (k + 1) 0).1.get? k = some (8000 + (k : Int))
        ∧ (newPorts intBits (k + 1) 0).2 = (k : Int) + 1 := by
  refine ⟨newPort_eq intBits c hw hlo hhi, fun k hk => ?_⟩
  have h0 : -2 ^ (intBits - 1) ≤ (0 : Int) := by
    rcases hw with rfl | rfl <;> norm_num
  rw [newPorts_eq intBits hw (k + 1) 0 h0 (by push_cast; linarith)]
  simp

/-- Instances of C8 (as amended): the counters 0 (64-bit `int`) and 41
(32-bit `int`), and the third call from the counter 0. -/
theorem newPort_spec_witness :
    newPort 64 0 = (8000 + 0, 0 + 1)
    ∧ newPort 32 41 = (8000 + 41, 41 + 1)
    ∧ ((newPorts 64 (2 + 1) 0).1.get? 2 = some (8000 + ((2 : Nat) : Int))
        ∧ (newPorts 64 (2 + 1) 0).2 = ((2 : Nat) : Int) + 1) :=
  ⟨(newPort_spec 64 0 (Or.inr rfl) (by norm_num) (by norm_num)).1,
   (newPort_spec 32 41 (Or.inl rfl) (by norm_num) (by norm_num)).1,
   (newPort_spec 64 0 (Or.inr rfl) (by norm_num) (by norm_num)).2 2 (by norm_num)⟩

/-- C8 (as stated) fails at the top of the range: at the counter
`2^63 - 8000` the sum `8000 + portCount` overflows `int64` and `newPort`
returns `-2^63`; at the counter `2^63 - 1` the counter itself wraps to
`-2^63`; with a 32-bit `int`, the conversion `int(port)` wraps at the
counter `2^31 - 8000`. -/
theorem newPort_wraps :
    newPort 64 (2 ^ 63 - 8000) = (-2 ^ 63, 2 ^ 63 - 7999)
    ∧ (newPort 64 (2 ^ 63 - 8000)).1 ≠ 8000 + (2 ^ 63 - 8000)
    ∧ newPort 64 (2 ^ 63 - 1) = (-2 ^ 63 + 7999, -2 ^ 63)
    ∧ (newPort 64 (2 ^ 63 - 1)).2 ≠ (2 ^ 63 - 1) + 1
    ∧ newPort 32 (2 ^ 31 - 8000) = (-2 ^ 31, 2 ^ 31 - 7999)
    ∧ (newPort 32 (2 ^ 31 - 8000)).1 ≠ 8000 + (2 ^ 31 - 8000) := by
  decide

theorem wrapInt_modEq (w : Nat) (x : Int) : wrapInt w x ≡ x [ZMOD 2 ^ w] := by
  unfold wrapInt
  have h := (Int.mod_modEq (x + 2 ^ (w - 1)) (2 ^ w)).sub_right (2 ^ (w - 1))
  simpa using h

theorem wrapInt_congr (w : Nat) (a b : Int) (h : a ≡ b [ZMOD 2 ^ w]) :
    wrapInt w a = wrapInt w b := by
  unfold wrapInt
  rw [(h.add_right (2 ^ (w - 1))).eq]

theorem newPorts_formula (intBits : Nat) :
    ∀ (n : Nat) (c : Int),
      (newPorts intBits n c).1
        = (List.range n).map (fun (k : Nat) => toInt intBits (wrapInt 64 (8000 + c + (k : Int)))) := by
  intro n
  induction n with
  | zero => intro c; rfl
  | succ n ih =>
    intro c
    simp only [newPorts, ih, List.range_succ_eq_map, List.map_cons, List.map_map,
      List.cons.injEq]
    refine ⟨by simp [newPort, addInt64], List.map_congr_left fun k _ => ?_⟩
    simp only [Function.comp, newPort, addInt64]
    congr 1
    apply wrapInt_congr
    have h := ((wrapInt_modEq 64 (c + 1)).add_left 8000).add_right (k : Int)
    have e : 8000 + (c + 1) + (k : Int) = 8000 + c + ((k.succ : Nat) : Int) := by
      push_cast
      ring
    rw [e] at h
    exact h

theorem port_modEq (intBits : Nat) (x : Int) (hw : intBits = 32 ∨ intBits = 64) :
    toInt intBits (wrapInt 64 x) ≡ x [ZMOD 2 ^ intBits] := by
  have hd : (2 : Int) ^ intBits ∣ 2 ^ 64 := by
    rcases hw with rfl | rfl <;> exact pow_dvd_pow 2 (by norm_num)
  exact (wrapInt_modEq intBits _).trans ((wrapInt_modEq 64 x).of_dvd hd)

theorem port_inj (intBits : Nat) (c : Int) (i j : Nat) (hw : intBits = 32 ∨ intBits = 64)
    (hi : i < 2 ^ intBits) (hj : j < 2 ^ intBits)
    (h : toInt intBits (wrapInt 64 (8000 + c + (i : Int)))
        = toInt intBits (wrapInt 64 (8000 + c + (j : Int)))) : i = j := by
  have hi1 := port_modEq intBits (8000 + c + (i : Int)) hw
  have hj1 := port_modEq intBits (8000 + c + (j : Int)) hw
  rw [h] at hi1
  have h1 := hi1.symm.trans hj1
  obtain ⟨t, ht⟩ := Int.modEq_iff_dvd.mp h1
  rcases hw with rfl | rfl <;> norm_num at hi hj ht <;> omega

theorem newPorts_nodup (intBits : Nat) (n : Nat) (c : Int) (hw : intBits = 32 ∨ intBits = 64)
    (hn : n ≤ 2 ^ intBits) : (newPorts intBits n c).1.Nodup := by
  rw [newPorts_formula]
  refine List.Nodup.map_on (fun x hx y hy hxy => ?_) (List.nodup_range n)
  rw [List.mem_range] at hx hy
  exact port_inj intBits c x y hw (by omega) (by omega) hxy

theorem newPorts_repeat (intBits : Nat) (c : Int) (hw : intBits = 32 ∨ intBits = 64) :
    ¬ (newPorts intBits (2 ^ intBits + 1) c).1.Nodup := by
  rw [newPorts_formula]
  intro hnd
  have h0 : (0 : Nat) ∈ List.range (2 ^ intBits + 1) := by simp
  have hM : (2 ^ intBits : Nat) ∈ List.range (2 ^ intBits + 1) := by simp
  have heq : toInt intBits (wrapInt 64 (8000 + c + ((0 : Nat) : Int)))
      = toInt intBits (wrapInt 64 (8000 + c + ((2 ^ intBits : Nat) : Int))) := by
    have hd : (2 : Int) ^ intBits ∣ 2 ^ 64 := by
      rcases hw with rfl | rfl <;> exact pow_dvd_pow 2 (by norm_num)
    apply wrapInt_congr
    refine ((wrapInt_modEq 64 _).of_dvd hd).trans (Int.ModEq.trans ?_
      ((wrapInt_modEq 64 _).of_dvd hd).symm)
    apply Int.modEq_iff_dvd.mpr
    refine ⟨1, ?_⟩
    push_cast
    ring
  have := List.inj_on_of_nodup_map hnd h0 hM heq
  have hpos : 0 < 2 ^ intBits := Nat.two_pow_pos intBits
  omega

theorem NewSeq_ports {σ : Type} (os : OS σ) (intBits : Nat) :
    ∀ (cfg : List (Bool × Option String)) (w w1 : World σ)
      (rs : List (Option DB × Option GoError)),
      NewSeq os intBits cfg w = .ok (w1, rs) →
        rs.length = cfg.length
        ∧ ∀ (i : Nat) (db : DB) (e : Option GoError), rs.get? i = some (some db, e) →
            db.addr = "localhost:"
              ++ formatInt (toInt intBits (wrapInt 64 (8000 + w.portCount + (i : Int)))) := by
  intro cfg
  induction cfg with
  | nil =>
    intro w w1 rs h
    simp only [NewSeq, Except.ok.injEq, Prod.mk.injEq] at h
    obtain ⟨rfl, rfl⟩ := h
    simp
  | cons c cs ih =>
    intro w w1 rs h
    simp only [NewSeq] at h
    cases hn : New os intBits { w with LogOutput := c.1, GOPATH := c.2 } with
    | error a => rw [hn] at h; simp at h
    | ok r =>
      rw [hn] at h
      simp only at h
      have hpc : r.1.portCount = wrapInt 64 (w.portCount + 1) := by
        have := New_portCount os intBits { w with LogOutput := c.1, GOPATH := c.2 }
        rw [hn] at this
        simpa [Outcome.world, newPort, addInt64] using this
      cases hrest : NewSeq os intBits cs r.1 with
      | error a => rw [hrest] at h; simp at h
      | ok rs1 =>
        rw [hrest] at h
        simp only [Except.ok.injEq, Prod.mk.injEq] at h
        obtain ⟨rfl, rfl⟩ := h
        obtain ⟨h2, h3⟩ := ih r.1 rs1.1 rs1.2 hrest
        refine ⟨by simp [h2], ?_⟩
        intro i db e hi
        cases i with
        | zero =>
          simp only [List.get?_cons_zero, Option.some.injEq] at hi
          have := New_handle_addr os intBits _ r.1 db e (by rw [hn, ← hi])
          simpa [newPort, addInt64] using this
        | succ j =>
          simp only [List.get?_cons_succ] at hi
          rw [h3 j db e hi, hpc]
          congr 3
          apply wrapInt_congr
          have h := ((wrapInt_modEq 64 (w.portCount + 1)).add_left 8000).add_right (j : Int)
          have e1 : 8000 + (w.portCount + 1) + (j : Int)
              = 8000 + w.portCount + ((j + 1 : Nat) : Int) := by
            push_cast
            ring
          rw [e1] at h
          exact h

/-- C1 (as amended). On a platform whose `int` has `w` bits (32 or 64), for
every initial value `c` of the port counter and every `N` up to `2^w`, the
ports allocated by `N` sequential calls of `newPort` are pairwise distinct,
and any two handles returned by `N` sequential calls of `New` from the
counter `c` have different addresses. If moreover `c` and the ports
`8000 + c, ..., 8000 + c + N - 1` are representable in `int`, the ports are
`8000 + c + k` for `k < N`, a strictly increasing sequence. -/
theorem newPorts_distinct (intBits : Nat) (n : Nat) (c : Int)
    (hw : intBits = 32 ∨ intBits = 64) (hn : n ≤ 2 ^ intBits) :
    (newPorts intBits n c).1.Nodup
    ∧ (∀ {σ : Type} (os : OS σ) (cfg : List (Bool × Option String)) (w w1 : World σ)
        (rs : List (Option DB × Option GoError)),
        cfg.length = n → w.portCount = c → NewSeq os intBits cfg w = .ok (w1, rs) →
        ∀ (i j : Nat) (dbi dbj : DB) (ei ej : Option GoError), i < j →
          rs.get? i = some (some dbi, ei) → rs.get? j = some (some dbj, ej) →
          dbi.addr ≠ dbj.addr)
    ∧ (-2 ^ (intBits - 1) ≤ c → 8000 + c + n ≤ 2 ^ (intBits - 1) →
        (newPorts intBits n c).1 = (List.range n).map (fun (k : Nat) => 8000 + c + (k : Int))
        ∧ (newPorts intBits n c).1.Pairwise (fun a b => a < b)) := by
  refine ⟨newPorts_nodup intBits n c hw hn, ?_, ?_⟩
  · intro σ os cfg w w1 rs hlen hc hseq i j dbi dbj ei ej hij hi hj
    subst hlen hc
    obtain ⟨hl, h3⟩ := NewSeq_ports os intBits cfg w w1 rs hseq
    have hjlt : j < rs.length := by
      by_contra hge
      rw [List.get?_eq_none.mpr (by omega)] at hj
      simp at hj
    rw [h3 i dbi ei hi, h3 j dbj ej hj]
    intro hcontra
    have := port_inj intBits w.portCount i j hw (by omega) (by omega)
      (addr_injective _ _ hcontra)
    omega
  · intro hlo hhi
    have heq := newPorts_eq intBits hw n c hlo hhi
    refine ⟨by rw [heq], ?_⟩
    rw [heq]
    simp only [List.pairwise_map]
    exact (List.pairwise_lt_range n).imp (fun {a b} hab => by
      have : (a : Int) < b := by exact_mod_cast hab
      linarith)

/-- Instances of C1 (as amended): three calls from the counter 0, where the
ports also increase; two calls from the counter `2^63 - 8001`, where the sum
overflows and the ports are still distinct; on the simulated system the
first and the third of three calls return handles, with different
addresses. -/
theorem newPorts_distinct_witness :
    (newPorts 64 3 0).1.Nodup
    ∧ ((newPorts 64 3 0).1 = [8000, 8001, 8002]
        ∧ (newPorts 64 3 0).1.Pairwise (fun a b => a < b))
    ∧ (newPorts 64 2 (2 ^ 63 - 8001)).1.Nodup
    ∧ NewSeq simOS 64 sampleCalls (freshWorld false none true)
        = .ok (twoReadyWorld,
            [(some sampleHandle, none), (none, some .ErrGopath), (some sampleHandle2, none)])
    ∧ sampleHandle.addr ≠ sampleHandle2.addr :=
  ⟨(newPorts_distinct 64 3 0 (Or.inr rfl) (by norm_num)).1,
   (newPorts_distinct 64 3 0 (Or.inr rfl) (by norm_num)).2.2 (by norm_num) (by norm_num),
   (newPorts_distinct 64 2 (2 ^ 63 - 8001) (Or.inr rfl) (by norm_num)).1,
   by decide,
   (newPorts_distinct 64 3 0 (Or.inr rfl) (by norm_num)).2.1
     simOS sampleCalls (freshWorld false none true) twoReadyWorld
     [(some sampleHandle, none), (none, some .ErrGopath), (some sampleHandle2, none)]
     rfl rfl (by decide)
     0 2 sampleHandle sampleHandle2 none none (by decide) (by decide) (by decide)⟩

/-- C1 (as stated) fails. Strictly increasing fails for an initial counter
near the top of `int64`: from the counter `2^63 - 8001`, two sequential calls
return `2^63 - 1` and then `-2^63`. Pairwise distinct fails for more calls
than `int` has values: among `2^32 + 1` calls with a 32-bit `int`, and among
`2^64 + 1` calls with a 64-bit `int`, two return the same port. -/
theorem newPorts_not_increasing :
    ((newPorts 64 2 (2 ^ 63 - 8001)).1 = [2 ^ 63 - 1, -2 ^ 63]
      ∧ ¬ (newPorts 64 2 (2 ^ 63 - 8001)).1.Pairwise (fun a b => a < b))
    ∧ ¬ (newPorts 32 (2 ^ 32 + 1) 0).1.Nodup
    ∧ ¬ (newPorts 64 (2 ^ 64 + 1) 0).1.Nodup :=
  ⟨by decide, newPorts_repeat 32 0 (Or.inl rfl), newPorts_repeat 64 0 (Or.inr rfl)⟩

/-! ## Concurrent allocation -/

theorem Conc.run_alone (intBits : Nat) (c : Int) :
    Conc.run intBits (Conc.init c 1) [0, 0]
      = { portCount := (newPort intBits c).2, threads := [.done (newPort intBits c).1] } := by
  rfl

/-- C2 (code at the failing schedule). Two goroutines call `newPort`; both
execute `port := 8000 + portCount` before either executes
`atomic.AddInt64(&portCount, 1)`. Both calls then return the same port, the
one a single call would return, for every initial counter; from the counter
0 both return 8000, and the counter ends at 2. -/
theorem newPort_interleaved_same_port (intBits : Nat) (c : Int) :
    (Conc.run intBits (Conc.init c 2) [0, 1, 0, 1]).finished = true
    ∧ (Conc.run intBits (Conc.init c 2) [0, 1, 0, 1]).returned
        = [some (newPort intBits c).1, some (newPort intBits c).1]
    ∧ (Conc.run 64 (Conc.init 0 2) [0, 1, 0, 1]).returned = [some 8000, some 8000]
    ∧ (Conc.run 64 (Conc.init 0 2) [0, 1, 0, 1]).portCount = 2 := by
  refine ⟨rfl, rfl, by decide, by decide⟩

/-! ## Every `New` consumes a port -/

/-- C10 (as amended). For every counter value below the top of `int64`,
`New` leaves the port counter exactly one higher, whatever its outcome
(handle, `ErrGopath`, an error of the pipe or of `Start`, `ErrConnectTimeout`,
or no return at all): the port is allocated before the configuration check,
so a call that fails with `ErrGopath` changes the counter and nothing else.
In a sequence of calls whose ports are representable in `int`, the handle
returned by call number `i` has the address `localhost:<8000 + c + i>` for
the initial counter `c`: the ports of the handles increase with the call
number and skip the calls that failed; for instance three calls of which the
second fails with `ErrGopath` yield the ports 8000 and 8002. -/
theorem New_consumes_port {σ : Type} (os : OS σ) (intBits : Nat) (w : World σ)
    (hlo : -2 ^ 63 ≤ w.portCount) (hhi : w.portCount < 2 ^ 63 - 1) :
    (New os intBits w).world.portCount = w.portCount + 1
    ∧ ((Split (Getenv w.GOPATH) ':').head? = some "" →
        New os intBits w = .ok ({ w with portCount := w.portCount + 1 }, none, some .ErrGopath))
    ∧ (∀ (cfg : List (Bool × Option String)) (w1 : World σ)
        (rs : List (Option DB × Option GoError)),
        (intBits = 32 ∨ intBits = 64) → -2 ^ (intBits - 1) ≤ w.portCount →
        8000 + w.portCount + cfg.length ≤ 2 ^ (intBits - 1) →
        NewSeq os intBits cfg w = .ok (w1, rs) →
          w1.portCount = w.portCount + cfg.length
          ∧ ∀ (i : Nat) (db : DB) (e : Option GoError), rs.get? i = some (some db, e) →
              db.addr = "localhost:" ++ formatInt (8000 + w.portCount + i))
    ∧ ∃ (w0 w1 : World Sim) (db0 db2 : DB),
        NewSeq simOS 64 sampleCalls w0
          = .ok (w1, [(some db0, none), (none, some .ErrGopath), (some db2, none)])
        ∧ w0.portCount = 0 ∧ db0.addr = "localhost:8000" ∧ db2.addr = "localhost:8002" := by
  have hadd : (newPort intBits w.portCount).2 = w.portCount + 1 := by
    show wrapInt 64 (w.portCount + 1) = w.portCount + 1
    apply wrapInt_of_mem <;> norm_num <;> omega
  refine ⟨by rw [New_portCount, hadd], ?_, ?_, ?_⟩
  · intro hg
    obtain ⟨tl, hs⟩ := Split_of_head? _ _ _ hg
    simp [New, hs, hadd]
  · intro cfg w1 rs hw h1 h2 hseq
    obtain ⟨h3, _, h4⟩ := NewSeq_spec os intBits hw cfg w w1 rs h1 h2 hseq
    exact ⟨h3, h4⟩
  · exact ⟨freshWorld false none true, twoReadyWorld, sampleHandle, sampleHandle2,
      by decide, rfl, by decide, by decide⟩

/-- Instances of C10 (as amended) on the simulated system: a call failing
with `ErrGopath`, a call that times out, and the counter after three calls. -/
theorem New_consumes_port_witness :
    (New simOS 64 (freshWorld false none true)).world.portCount
        = (freshWorld false none true).portCount + 1
    ∧ (New simOS 64 (freshWorld false (some "/go") false)).world.portCount
        = (freshWorld false (some "/go") false).portCount + 1
    ∧ New simOS 64 (freshWorld true none true)
        = .ok ({ freshWorld true none true with
                  portCount := (freshWorld true none true).portCount + 1 },
               none, some .ErrGopath)
    ∧ twoReadyWorld.portCount = (freshWorld false none true).portCount + sampleCalls.length :=
  ⟨(New_consumes_port simOS 64 (freshWorld false none true) (by decide) (by decide)).1,
   (New_consumes_port simOS 64 (freshWorld false (some "/go") false) (by decide)
      (by decide)).1,
   (New_consumes_port simOS 64 (freshWorld true none true) (by decide) (by decide)).2.1
      (by decide),
   ((New_consumes_port simOS 64 (freshWorld false none true) (by decide) (by decide)).2.2.1
      sampleCalls twoReadyWorld
      [(some sampleHandle, none), (none, some .ErrGopath), (some sampleHandle2, none)]
      (Or.inr rfl) (by decide) (by decide) (by decide)).1⟩

/-- C10 (as stated) fails at the top of `int64`: at the counter `2^63 - 1` a
call of `New` leaves the counter at `-2^63`, not one higher. -/
theorem New_counter_wraps :
    (New simOS 64 { freshWorld false none true with portCount := 2 ^ 63 - 1 }).world.portCount
      = -2 ^ 63
    ∧ (New simOS 64 { freshWorld false none true with portCount := 2 ^ 63 - 1 }).world.portCount
      ≠ (2 ^ 63 - 1) + 1 := by
  decide

end Dynamodbtest
